import Mathlib

/-!
Shallow embedding of the s3finder scan pipeline (Go), used to check the
natural-language specification against the code.

Conventions of the embedding:
* Go strings are modelled as Lean `String`; all inputs of interest are
  ASCII, so byte length and character length coincide and Go's
  `strings.ToLower` / `strings.TrimSpace` agree with the ASCII versions
  defined here.
* Go `float64` rate values are modelled as rationals (`ℚ`) carrying the
  exact binary64 values.  Halving (`* 0.5`), the floor/ceiling
  assignments and all comparisons are exact in binary64 for the values in
  range, so they are modelled exactly; the additive-increase
  multiplication `current * 1.1` rounds, and is modelled by `fl64`
  (round to nearest, ties to even) applied to the product with the
  binary64 value of the literal `1.1`.
* Network I/O (HTTP responses, S3 list calls) is modelled by explicit
  oracles passed as function arguments.
* Context cancellation and the token-bucket `Wait` are not modelled: they
  abort a call before any HTTP response exists, outside the claims below.
-/

namespace S3Finder

/-! ### ASCII string helpers (Go `strings` package) -/

/-- ASCII lowercase of a character, as Go `strings.ToLower` acts on ASCII. -/
def lowerChar (c : Char) : Char :=
  if 'A' ≤ c ∧ c ≤ 'Z' then Char.ofNat (c.toNat + 32) else c

/-- ASCII lowercase of a string. -/
def lowerStr (s : String) : String :=
  ⟨s.data.map lowerChar⟩

/-- ASCII whitespace, the fragment of Go `unicode.IsSpace` we need. -/
def isSpaceChar (c : Char) : Bool :=
  c = ' ' ∨ c = '\t' ∨ c = '\n' ∨ c = '\r'

/-- Go `strings.TrimSpace` restricted to ASCII whitespace. -/
def trimStr (s : String) : String :=
  ⟨((s.data.dropWhile isSpaceChar).reverse.dropWhile isSpaceChar).reverse⟩

/-- Does `sub` occur as a contiguous run inside `l`?  (Helper for
`strings.Contains`.) -/
def charsContain (sub : List Char) : List Char → Bool
  | [] => sub.isEmpty
  | c :: cs => sub.isPrefixOf (c :: cs) || charsContain sub cs

/-- Go `strings.Contains s sub`. -/
def containsSub (s sub : String) : Bool :=
  charsContain sub.data s.data

/-- Go `strings.Split s "."` on the character list. -/
def splitDot : List Char → List (List Char)
  | [] => [[]]
  | c :: cs =>
    match splitDot cs with
    | [] => if c = '.' then [[], []] else [[c]]
    | p :: ps => if c = '.' then [] :: p :: ps else (c :: p) :: ps

/-- Go `strings.ReplaceAll s "-" sep`. -/
def replaceDash (s : String) (sep : String) : String :=
  ⟨s.data.flatMap (fun c => if c = '-' then sep.data else [c])⟩

/-! ### Binary64 rounding

The Go limiter computes on `float64`.  Within the ranges this model ever
produces (5 … 10000 RPS), halving a binary64 value, the constant
assignments and every comparison are exact, but `current * 1.1` is not:
both the literal `1.1` and the product round.  `fl64` is correct rounding
of a positive rational to binary64 (round to nearest, ties to even),
ignoring overflow and subnormals, which are far outside that range. -/

/-- The exact binary64 value of the Go literal `1.1`
(`4953959590107546 × 2⁻⁵²`). -/
def lit1_1 : ℚ := 4953959590107546 / 2 ^ 52

/-- Round a rational to the nearest integer, ties to even. -/
def rne (x : ℚ) : ℤ :=
  if x - ⌊x⌋ < 1 / 2 then ⌊x⌋
  else if 1 / 2 < x - ⌊x⌋ then ⌊x⌋ + 1
  else if ⌊x⌋ % 2 = 0 then ⌊x⌋ else ⌊x⌋ + 1

/-- Correct rounding of a positive rational to a binary64 value: scale
into the 53-bit significand range `[2^52, 2^53)`, round to nearest with
ties to even, scale back.  Non-positive arguments (which the limiter
never produces) are returned unchanged. -/
def fl64 (q : ℚ) : ℚ :=
  if 0 < q then
    let e : ℤ := Int.log 2 q
    (rne (q * (2 : ℚ) ^ ((52 : ℤ) - e)) : ℚ) * (2 : ℚ) ^ (e - 52)
  else q

/-! ### Adaptive rate limiter (`pkg/ratelimit`, file `part_008`)

State of `AdaptiveLimiter`, with the token bucket itself elided: the claims
only concern `maxRPS`, `currentRPS` and the two counters, and the bucket's
limit/burst are kept equal to `currentRPS` by the code. -/

structure AdaptiveLimiter where
  maxRPS : ℚ
  currentRPS : ℚ
  consecutive429 : ℕ
  successCount : ℕ
  deriving DecidableEq, Repr

/-- `ratelimit.New`: a non-positive ceiling falls back to 100. -/
def ratelimitNew (maxRPS : ℚ) : AdaptiveLimiter :=
  let m := if maxRPS ≤ 0 then 100 else maxRPS
  { maxRPS := m, currentRPS := m, consecutive429 := 0, successCount := 0 }

/-- `AdaptiveLimiter.RecordResponse`, translated statement by statement from
the Go source.  `current * 0.5` is exact in binary64 (for the in-range
values this model produces) and stays an exact product; `current * 1.1`
rounds in binary64 and becomes `fl64 (current * lit1_1)`. -/
def RecordResponse (a : AdaptiveLimiter) (statusCode : ℕ) : AdaptiveLimiter :=
  if statusCode = 429 ∨ statusCode = 503 then
    let a1 := { a with consecutive429 := a.consecutive429 + 1, successCount := 0 }
    if 3 ≤ a1.consecutive429 then
      let newRPS := a.currentRPS * (1 / 2)
      let newRPS := if newRPS < 10 then 10 else newRPS
      { a1 with currentRPS := newRPS, consecutive429 := 0 }
    else a1
  else
    let a1 := { a with consecutive429 := 0, successCount := a.successCount + 1 }
    if 100 ≤ a1.successCount ∧ a.currentRPS < a.maxRPS then
      let newRPS := fl64 (a.currentRPS * lit1_1)
      let newRPS := if a.maxRPS < newRPS then a.maxRPS else newRPS
      { a1 with currentRPS := newRPS, successCount := 0 }
    else a1

/-- Run a sequence of `RecordResponse` calls from a starting state. -/
def recordAll (a : AdaptiveLimiter) (codes : List ℕ) : AdaptiveLimiter :=
  codes.foldl RecordResponse a

/-! ### Bucket-name validation (`pkg/permutation/engine.go`) -/

/-- Character class `[a-z0-9]`. -/
def isLowerAlnum (c : Char) : Bool :=
  ('a' ≤ c ∧ c ≤ 'z') ∨ ('0' ≤ c ∧ c ≤ '9')

/-- Character class `[a-z0-9.-]`. -/
def isMidChar (c : Char) : Bool :=
  isLowerAlnum c || c = '.' || c = '-'

/-- The anchored regular expression `^[a-z0-9][a-z0-9.-]{1,61}[a-z0-9]$`
(`validBucketName` in the source), unfolded over characters: total length
3 to 63, first and last characters in `[a-z0-9]`, all characters between
them in `[a-z0-9.-]`. -/
def matchesBucketRegex (s : String) : Bool :=
  let l := s.data
  decide (3 ≤ l.length) && decide (l.length ≤ 63) &&
  (match l.head? with | some c => isLowerAlnum c | none => false) &&
  (match l.getLast? with | some c => isLowerAlnum c | none => false) &&
  ((l.drop 1).dropLast.all isMidChar)

/-- `isIPAddress` from the source: `strings.Split(s, ".")` yields exactly
four parts, each of 1 to 3 characters, all decimal digits. -/
def isIPAddress (s : String) : Bool :=
  let parts := splitDot s.data
  parts.length = 4 &&
    parts.all (fun p => decide (1 ≤ p.length) && decide (p.length ≤ 3) &&
      p.all (fun c => '0' ≤ c ∧ c ≤ '9'))

/-- `IsValidBucketName` from the source, with the Go guard order kept. -/
def IsValidBucketName (name : String) : Bool :=
  if name.data.length < 3 ∨ 63 < name.data.length then false
  else if isIPAddress name then false
  else if containsSub name ".." then false
  else matchesBucketRegex name

/-- Validation as the specification words it: «Length 3–63; regex
`^[a-z0-9][a-z0-9.-]{1,61}[a-z0-9]$`; reject `..`; reject strings that are
exactly four dot-separated groups of 1–3 digits (IPv4 shape)».  Written as
one conjunction, to be compared with the source's `IsValidBucketName`. -/
def specValidBucketName (s : String) : Bool :=
  decide (3 ≤ s.data.length) && decide (s.data.length ≤ 63) &&
  matchesBucketRegex s &&
  !(containsSub s "..") &&
  !(isIPAddress s)

/-! ### Permutation engine (`pkg/permutation/engine.go`) -/

structure Engine where
  suffixes : List String
  prefixes : List String
  separators : List String
  years : List String
  regions : List String

/-- `permutation.Default()`: the shipped knob sets. -/
def defaultEngine : Engine where
  suffixes := ["", "-dev", "-prod", "-staging", "-backup", "-backups",
    "-logs", "-assets", "-internal", "-public", "-private",
    "-data", "-files", "-media", "-static", "-cdn",
    "-api", "-web", "-app", "-test", "-temp",
    "-archive", "-old", "-new", "-v2", "-beta"]
  prefixes := ["", "dev-", "prod-", "staging-", "backup-", "test-",
    "internal-", "public-", "private-", "temp-", "old-"]
  separators := ["-", "."]
  years := ["", "-2022", "-2023", "-2024", "-2025", "-22", "-23", "-24", "-25"]
  regions := ["", "-us-east-1", "-us-east-2", "-us-west-1", "-us-west-2",
    "-eu-west-1", "-eu-west-2", "-eu-central-1",
    "-ap-south-1", "-ap-northeast-1", "-ap-southeast-1"]

/-- The `add` closure of `Engine.Generate`: append `n` when it is new and
passes validation (the `seen` map is mirrored by list membership). -/
def addValid (acc : List String) (n : String) : List String :=
  if n ∉ acc ∧ IsValidBucketName n = true then acc ++ [n] else acc

/-- The candidate strings produced by the `add` calls of `Engine.Generate`,
in source order, for an already cleaned (trimmed, lowercased, non-empty)
seed. -/
def candidates (e : Engine) (seed : String) : List String :=
  [seed]
  ++ e.prefixes.map (fun p => p ++ seed)
  ++ e.suffixes.map (fun x => seed ++ x)
  ++ e.prefixes.flatMap (fun p => e.suffixes.map (fun x => p ++ seed ++ x))
  ++ e.years.map (fun y => seed ++ y)
  ++ e.suffixes.flatMap (fun x => e.years.map (fun y => seed ++ x ++ y))
  ++ e.regions.map (fun r => seed ++ r)
  ++ e.suffixes.flatMap (fun x => e.regions.map (fun r => seed ++ x ++ r))
  ++ e.separators.flatMap (fun sep =>
      if sep ≠ "-" then
        let v := replaceDash seed sep
        if v ≠ seed then v :: e.suffixes.map (fun x => v ++ x) else []
      else [])

/-- `Engine.Generate`: clean the seed, return `nil` when it is empty, else
run every `add` call in source order. -/
def generate (e : Engine) (seed : String) : List String :=
  let c := lowerStr (trimStr seed)
  if c = "" then [] else (candidates e c).foldl addValid []

/-- The `add` closure of `generateNames` in `cmd/s3finder/main.go`:
deduplicate only, no validation. -/
def addUnique (acc : List String) (n : String) : List String :=
  if n ∈ acc then acc else acc ++ [n]

/-- «A running set keyed by exact string; first insertion wins, preserving
insertion order» — the specification's deduplication, literally. -/
def firstWins (l : List String) : List String :=
  l.foldl addUnique []

/-- `Engine.GenerateFromWordlist` from `engine.go`: the per-word candidate
strings, in source order. -/
def wordlistCandidates (e : Engine) (seed word : String) : List String :=
  [word]
  ++ (if seed ≠ "" then
        [seed ++ "-" ++ word, word ++ "-" ++ seed,
         seed ++ "." ++ word, word ++ "." ++ seed]
      else [])
  ++ e.suffixes.flatMap (fun x =>
        (word ++ x) :: (if seed ≠ "" then [seed ++ "-" ++ word ++ x] else []))
  ++ e.years.flatMap (fun y =>
        (word ++ y) :: (if seed ≠ "" then [seed ++ "-" ++ word ++ y] else []))

/-- `Engine.GenerateFromWordlist`: clean the seed once, clean each word,
skip empty words, and run the `add` calls in source order.  (Used by an
earlier revision of `generateNames`; the current driver adds wordlist
lines raw.) -/
def GenerateFromWordlist (e : Engine) (words : List String) (seed : String) :
    List String :=
  let s := lowerStr (trimStr seed)
  (words.flatMap (fun w =>
      let w := lowerStr (trimStr w)
      if w = "" then [] else wordlistCandidates e s w)).foldl addValid []

/-- `generateNames` from the current `cmd/s3finder/main.go` restricted to
the seed and wordlist sources (no domain, no AI): permutations of the seed
first, then the wordlist lines exactly as read, all through the
deduplicating `add`. -/
def generateNames (seed : String) (wordlist : List String) : List String :=
  (generate defaultEngine seed ++ wordlist).foldl addUnique []

/-! ### Prober (`pkg/scanner/prober.go`) -/

/-- `ProbeResult`, constructor order as the Go `iota` constants. -/
inductive ProbeResult where
  | bucketNotFound
  | bucketExists
  | bucketForbidden
  | bucketError
  deriving DecidableEq, Repr

/-- `ProbeResponse` (the `Bucket` field is carried separately where
needed; `error` is `some msg` when the Go `Error` field is non-nil). -/
structure ProbeResponse where
  result : ProbeResult
  statusCode : ℕ
  error : Option String
  deriving DecidableEq, Repr

/-- Outcome of one HTTP HEAD attempt: a transport error or a status. -/
inductive Attempt where
  | netErr
  | status (code : ℕ)
  deriving DecidableEq, Repr

/-- The `switch httpResp.StatusCode` of `Prober.Check`. -/
def classifyStatus (s : ℕ) : ProbeResult :=
  if s = 200 then .bucketExists
  else if s = 403 then .bucketForbidden
  else if s = 404 then .bucketNotFound
  else if s = 301 ∨ s = 307 then .bucketForbidden
  else .bucketError

/-- The retry loop of `Prober.Check` (`maxRetries = 2`).  `f` gives the
outcome of the HTTP attempt with a given index; `fuel` only bounds the
recursion and is started at 3, one unit per loop iteration, so the
fuel-exhausted case — Go's unreachable trailing `return resp`, a zero-value
response — is never taken.  Rate-limiter bookkeeping and context
cancellation (which return an error before any response) are elided. -/
def checkLoop (f : ℕ → Attempt) : ℕ → ℕ → ProbeResponse
  | _, 0 => { result := .bucketNotFound, statusCode := 0, error := none }
  | attempt, fuel + 1 =>
    match f attempt with
    | .netErr =>
      if attempt < 2 then checkLoop f (attempt + 1) fuel
      else { result := .bucketError, statusCode := 0, error := some "network error" }
    | .status s =>
      if 500 ≤ s ∧ attempt < 2 then checkLoop f (attempt + 1) fuel
      else
        { result := classifyStatus s
          statusCode := s
          error :=
            if s = 200 ∨ s = 403 ∨ s = 404 ∨ s = 301 ∨ s = 307 then none
            else some ("unexpected status code: " ++ toString s) }

/-- `Prober.Check` for a given sequence of attempt outcomes. -/
def check (f : ℕ → Attempt) : ProbeResponse :=
  checkLoop f 0 3

/-- An attempt outcome that `Check` retries when it is not the last one. -/
def retryable : Attempt → Prop
  | .netErr => True
  | .status s => 500 ≤ s

/-! ### Scanner (`pkg/scanner/scanner.go`) -/

/-- The `Stats` counters touched by `processBucket` (`Private` is named
`privateN` since `private` is a Lean keyword). -/
structure ScanStats where
  scanned : ℕ
  found : ℕ
  publicN : ℕ
  privateN : ℕ
  errors : ℕ
  deriving DecidableEq, Repr

def ScanStats.zero : ScanStats := ⟨0, 0, 0, 0, 0⟩

/-- `InspectResult` (`Exists` is named `existsB` since `exists` is a Lean
keyword; the timestamp is elided). -/
structure InspectResult where
  bucket : String
  existsB : Bool
  isPublic : Bool
  acl : String
  region : String
  objectCount : ℤ
  sampleKeys : List String
  error : Option String
  deriving DecidableEq, Repr

/-- `ScanResult` as built by `processBucket` (timestamp elided). -/
structure ScanResult where
  bucket : String
  probe : ProbeResult
  inspect : Option InspectResult
  deriving DecidableEq, Repr

/-- `Scanner.processBucket`: bump `scanned`, probe, update the counters by
classification, attach the deep inspection for hits, and emit the result —
except that a `BucketNotFound` returns without emitting.  `probeO` and
`inspectO` are oracles for `Prober.Check` and `Inspector.Inspect`. -/
def processBucket (deep : Bool) (probeO : String → ProbeResponse)
    (inspectO : String → InspectResult)
    (st : ScanStats × List ScanResult) (bucket : String) :
    ScanStats × List ScanResult :=
  let s := { st.1 with scanned := st.1.scanned + 1 }
  let pr := probeO bucket
  match pr.result with
  | .bucketNotFound => (s, st.2)
  | .bucketExists =>
    let s := { s with found := s.found + 1, publicN := s.publicN + 1 }
    let r : ScanResult :=
      ⟨bucket, pr.result, if deep then some (inspectO bucket) else none⟩
    (s, st.2 ++ [r])
  | .bucketForbidden =>
    let s := { s with found := s.found + 1, privateN := s.privateN + 1 }
    let r : ScanResult :=
      ⟨bucket, pr.result, if deep then some (inspectO bucket) else none⟩
    (s, st.2 ++ [r])
  | .bucketError =>
    let s := { s with errors := s.errors + 1 }
    let r : ScanResult := ⟨bucket, pr.result, none⟩
    (s, st.2 ++ [r])

/-- The worker pool drains every name through `processBucket`; results are
collected in completion order (one worker suffices for the claims, which
are order-insensitive up to the multiset of emissions). -/
def runScan (deep : Bool) (probeO : String → ProbeResponse)
    (inspectO : String → InspectResult) (names : List String) :
    ScanStats × List ScanResult :=
  names.foldl (processBucket deep probeO inspectO) (ScanStats.zero, [])

/-! ### Inspector (`pkg/scanner` inspector, file `part_009`)

The anonymous `ListObjectsV2` call is an oracle from the region used for
the attempt to either an error message or a listing; the SDK config load
is assumed to succeed (its failure is an environment error that
short-circuits to the `unknown` ACL before any retry logic). -/

/-- The fields of the `ListObjectsV2` output the code reads. -/
structure ListOutput where
  contents : List String
  isTruncated : Bool
  deriving DecidableEq, Repr

/-- The tuple returned by `checkPublicAccess*`. -/
structure AccessResult where
  isPublic : Bool
  acl : String
  keys : List String
  count : ℤ
  deriving DecidableEq, Repr

/-- The known region list of `parseRegionFromError`, in source order. -/
def knownRegions : List String :=
  ["us-east-1", "us-east-2", "us-west-1", "us-west-2",
   "eu-west-1", "eu-west-2", "eu-west-3", "eu-central-1",
   "ap-south-1", "ap-northeast-1", "ap-northeast-2", "ap-southeast-1",
   "ap-southeast-2", "sa-east-1", "ca-central-1"]

/-- `parseRegionFromError`: first known region occurring in the message,
defaulting to `us-east-1`. -/
def parseRegionFromError (errMsg : String) : String :=
  match knownRegions.find? (fun r => containsSub errMsg r) with
  | some r => r
  | none => "us-east-1"

/-- The region-mismatch test of `checkPublicAccessWithRetry`. -/
def isRegionMismatch (e : String) : Bool :=
  containsSub e "BucketRegionError" || containsSub e "PermanentRedirect" ||
    containsSub e "please use the correct region"

/-- The entry normalisation of `checkPublicAccessWithRetry`. -/
def normRegion (region : String) : String :=
  if region = "" ∨ region = "unknown" then "us-east-1" else region

/-- The success branch of `checkPublicAccessWithRetry`: public-read, up to
10 sample keys, `len(Contents)` as the count or `-2` when truncated. -/
def listSuccess (out : ListOutput) : AccessResult :=
  { isPublic := true
    acl := "public-read"
    keys := out.contents.take 10
    count := if out.isTruncated then -2 else (out.contents.length : ℤ) }

/-- The error fallthrough of `checkPublicAccessWithRetry`:
`AccessDenied` and `AllAccessDisabled` checks, else `unknown`. -/
def listErrorACL (e : String) : AccessResult :=
  if containsSub e "AccessDenied" then ⟨false, "private", [], -1⟩
  else if containsSub e "AllAccessDisabled" then ⟨false, "disabled", [], -1⟩
  else ⟨false, "unknown", [], -1⟩

/-- `checkPublicAccessWithRetry` with `retried = true`: the body of the Go
function with the (now disabled) retry branch gone. -/
def checkAccessFinal (listO : String → Except String ListOutput)
    (region : String) : AccessResult :=
  match listO (normRegion region) with
  | .ok out => listSuccess out
  | .error e => listErrorACL e

/-- `checkPublicAccessWithRetry`: the `retried = false` call recurses at
most once, with the flag set, hence through `checkAccessFinal`. -/
def checkPublicAccessWithRetry (listO : String → Except String ListOutput)
    (region : String) : Bool → AccessResult
  | true => checkAccessFinal listO region
  | false =>
    let r := normRegion region
    match listO r with
    | .ok out => listSuccess out
    | .error e =>
      if isRegionMismatch e then
        let correct := parseRegionFromError e
        if correct ≠ "" ∧ correct ≠ r then checkAccessFinal listO correct
        else listErrorACL e
      else listErrorACL e

/-- `checkPublicAccess` = `checkPublicAccessWithRetry(..., false)`. -/
def checkPublicAccess (listO : String → Except String ListOutput)
    (region : String) : AccessResult :=
  checkPublicAccessWithRetry listO region false

/-- `getBucketRegion` of `part_009`: the `x-amz-bucket-region` header of a
HEAD request (`headO`, `none` when the request fails), defaulting to
`us-east-1` when the request fails or the header is absent or empty.  The
Go function never returns a non-nil error. -/
def getBucketRegion (headO : Option String) : String :=
  match headO with
  | some r => if r ≠ "" then r else "us-east-1"
  | none => "us-east-1"

/-- `Inspector.Inspect` of `part_009`: `Exists` is set `true` up front,
the region comes from `getBucketRegion` (whose error branch is dead code),
and the access fields from `checkPublicAccess` run against that region. -/
def inspect (headO : Option String)
    (listO : String → Except String ListOutput) (bucket : String) :
    InspectResult :=
  let region := getBucketRegion headO
  let a := checkPublicAccess listO region
  { bucket := bucket
    existsB := true
    isPublic := a.isPublic
    acl := a.acl
    region := region
    objectCount := a.count
    sampleKeys := a.keys
    error := none }

/-! ### Concrete stub inputs for the scenario claims -/

/-- Stub statuses of scenario 3: five names probed with
200, 403, 404, 301, 500. -/
def stubStatus (bucket : String) : ℕ :=
  if bucket = "n1" then 200
  else if bucket = "n2" then 403
  else if bucket = "n3" then 404
  else if bucket = "n4" then 301
  else 500

/-- Stub prober for scenario 3: every attempt for a name returns its stub
status (so a 500 is retried twice and then surfaces). -/
def stubProbe (bucket : String) : ProbeResponse :=
  check (fun _ => .status (stubStatus bucket))

/-- A throwaway inspect outcome for scenarios that do not use deep mode. -/
def stubInspect (bucket : String) : InspectResult :=
  ⟨bucket, true, false, "unknown", "us-east-1", -1, [], none⟩

/-- List oracle of scenario 5: the attempt against `us-east-1` (from the
failed/absent region header) fails with a region-mismatch error naming
`eu-west-1`; the attempt against `eu-west-1` succeeds with one key. -/
def regionRetryListO (region : String) : Except String ListOutput :=
  if region = "eu-west-1" then .ok ⟨["key1"], false⟩
  else .error "operation error S3: ListObjectsV2, please use the correct region: eu-west-1"

/-- The record a non-dropped classification emits for a bucket (used to
characterise the emission stream of `runScan`). -/
def emittedRecord (deep : Bool) (probeO : String → ProbeResponse)
    (inspectO : String → InspectResult) (bucket : String) : ScanResult :=
  match (probeO bucket).result with
  | .bucketNotFound => ⟨bucket, .bucketNotFound, none⟩
  | .bucketExists =>
    ⟨bucket, .bucketExists, if deep then some (inspectO bucket) else none⟩
  | .bucketForbidden =>
    ⟨bucket, .bucketForbidden, if deep then some (inspectO bucket) else none⟩
  | .bucketError => ⟨bucket, .bucketError, none⟩

/-! ## Helper lemmas -/

theorem recordAll_success_run (n : ℕ) :
    ∀ a : AdaptiveLimiter, a.consecutive429 = 0 → a.successCount + n ≤ 99 →
      recordAll a (List.replicate n 200) = { a with successCount := a.successCount + n } := by
  induction n with
  | zero => intro a hc _; simp [recordAll]
  | succ n ih =>
    intro a hc hle
    have hstep : RecordResponse a 200 =
        { a with consecutive429 := 0, successCount := a.successCount + 1 } := by
      have hno : ¬(100 ≤ a.successCount + 1 ∧ a.currentRPS < a.maxRPS) := by
        rintro ⟨h100, -⟩; omega
      unfold RecordResponse
      rw [if_neg (by norm_num : ¬((200 : ℕ) = 429 ∨ (200 : ℕ) = 503))]
      dsimp only
      rw [if_neg hno]
    have hrec : recordAll a (List.replicate (n + 1) 200) =
        recordAll (RecordResponse a 200) (List.replicate n 200) := by
      simp [recordAll, List.replicate_succ]
    have hle2 : (a.successCount + 1) + n ≤ 99 := by omega
    rw [hrec, hstep, ih _ rfl hle2, hc]
    simp only [AdaptiveLimiter.mk.injEq]
    exact ⟨by trivial, by trivial, by trivial, by omega⟩

theorem le_rne (x : ℚ) : x - 1 / 2 ≤ (rne x : ℚ) := by
  unfold rne
  have hf1 : (⌊x⌋ : ℚ) ≤ x := Int.floor_le x
  have hf2 : x < ⌊x⌋ + 1 := Int.lt_floor_add_one x
  split_ifs with h1 h2 h3 <;> push_cast <;> linarith

theorem fl64_lower {q : ℚ} (hq : 0 < q) : q - q * (1 / 2 ^ 53) ≤ fl64 q := by
  unfold fl64
  rw [if_pos hq]
  dsimp only
  have hpow : ((2 : ℕ) : ℚ) ^ Int.log 2 q ≤ q := Int.zpow_log_le_self (by norm_num) hq
  have hpow2 : (2 : ℚ) ^ Int.log 2 q ≤ q := by exact_mod_cast hpow
  have hrne := le_rne (q * (2 : ℚ) ^ ((52 : ℤ) - Int.log 2 q))
  have hp : (0 : ℚ) < (2 : ℚ) ^ (Int.log 2 q - 52) := by positivity
  have hmul := mul_le_mul_of_nonneg_right hrne (le_of_lt hp)
  refine le_trans ?_ hmul
  have hcancel : (2 : ℚ) ^ ((52 : ℤ) - Int.log 2 q) * (2 : ℚ) ^ (Int.log 2 q - 52) = 1 := by
    rw [← zpow_add₀ (by norm_num : (2 : ℚ) ≠ 0)]
    norm_num
  have hhalf : (1 / 2 : ℚ) * (2 : ℚ) ^ (Int.log 2 q - 52) =
      (2 : ℚ) ^ (Int.log 2 q - 53) := by
    rw [show Int.log 2 q - 52 = (Int.log 2 q - 53) + 1 by ring,
      zpow_add₀ (by norm_num : (2 : ℚ) ≠ 0), zpow_one]
    ring
  have hbound : (2 : ℚ) ^ (Int.log 2 q - 53) ≤ q * (1 / 2 ^ 53) := by
    rw [show Int.log 2 q - 53 = Int.log 2 q + (-53) by ring,
      zpow_add₀ (by norm_num : (2 : ℚ) ≠ 0)]
    have h253 : ((2 : ℚ) ^ (-53 : ℤ)) = 1 / 2 ^ 53 := by
      rw [zpow_neg]
      norm_num
    rw [h253]
    exact mul_le_mul_of_nonneg_right hpow2 (by positivity)
  calc q - q * (1 / 2 ^ 53) ≤ q - (2 : ℚ) ^ (Int.log 2 q - 53) := by linarith
    _ = (q * (2 : ℚ) ^ ((52 : ℤ) - Int.log 2 q) - 1 / 2) *
        (2 : ℚ) ^ (Int.log 2 q - 52) := by
      rw [sub_mul, mul_assoc, hcancel, mul_one, hhalf]

theorem fl64_fifty : fl64 ((50 : ℚ) * lit1_1) = 7740561859543041 / 2 ^ 47 := by
  have hq : (0 : ℚ) < 50 * lit1_1 := by norm_num [lit1_1]
  have h5 : (5 : ℤ) ≤ Int.log 2 ((50 : ℚ) * lit1_1) := by
    rw [← Int.zpow_le_iff_le_log (by norm_num) hq]
    norm_num [lit1_1]
  have h6 : Int.log 2 ((50 : ℚ) * lit1_1) < 6 := by
    rw [← Int.lt_zpow_iff_log_lt (by norm_num) hq]
    norm_num [lit1_1]
  have hlog : Int.log 2 ((50 : ℚ) * lit1_1) = 5 := by omega
  have hm : (50 : ℚ) * lit1_1 * (2 : ℚ) ^ ((52 : ℤ) - 5) = 61924494876344325 / 8 := by
    norm_num [lit1_1]
  have hfloor : ⌊(61924494876344325 : ℚ) / 8⌋ = 7740561859543040 := by
    rw [Int.floor_eq_iff]
    norm_num
  have hrne : rne ((61924494876344325 : ℚ) / 8) = 7740561859543041 := by
    unfold rne
    rw [hfloor]
    norm_num
  unfold fl64
  rw [if_pos hq]
  dsimp only
  rw [hlog, hm, hrne]
  norm_num

theorem fl64_ge_ten {x : ℚ} (hx : 10 ≤ x) : 10 ≤ fl64 (x * lit1_1) := by
  have hxpos : (0 : ℚ) < x := by linarith
  have hq : (0 : ℚ) < x * lit1_1 := by
    have : (0 : ℚ) < lit1_1 := by norm_num [lit1_1]
    exact mul_pos hxpos this
  have hl := fl64_lower hq
  have hcoef : (1 : ℚ) ≤ lit1_1 * (1 - 1 / 2 ^ 53) := by norm_num [lit1_1]
  have hxc : x ≤ x * (lit1_1 * (1 - 1 / 2 ^ 53)) := by
    calc x = x * 1 := (mul_one x).symm
      _ ≤ x * (lit1_1 * (1 - 1 / 2 ^ 53)) :=
        mul_le_mul_of_nonneg_left hcoef (le_of_lt hxpos)
  have hre : x * (lit1_1 * (1 - 1 / 2 ^ 53)) =
      x * lit1_1 - x * lit1_1 * (1 / 2 ^ 53) := by ring
  rw [hre] at hxc
  linarith

theorem recordResponse_bounds (a : AdaptiveLimiter) (c : ℕ)
    (h10 : 10 ≤ a.currentRPS) (hle : a.currentRPS ≤ a.maxRPS) :
    10 ≤ (RecordResponse a c).currentRPS ∧
      (RecordResponse a c).currentRPS ≤ (RecordResponse a c).maxRPS ∧
      (RecordResponse a c).maxRPS = a.maxRPS := by
  have hfl : 10 ≤ fl64 (a.currentRPS * lit1_1) := fl64_ge_ten h10
  unfold RecordResponse
  dsimp only
  split_ifs with h1 h2 h3 h4 h5 <;> dsimp only <;>
    exact ⟨by linarith, by linarith, by trivial⟩

theorem recordAll_bounds (codes : List ℕ) :
    ∀ a : AdaptiveLimiter, 10 ≤ a.currentRPS → a.currentRPS ≤ a.maxRPS →
      10 ≤ (recordAll a codes).currentRPS ∧
        (recordAll a codes).currentRPS ≤ (recordAll a codes).maxRPS ∧
        (recordAll a codes).maxRPS = a.maxRPS := by
  induction codes with
  | nil => intro a h10 hle; exact ⟨h10, hle, rfl⟩
  | cons c rest ih =>
    intro a h10 hle
    obtain ⟨s10, sle, smax⟩ := recordResponse_bounds a c h10 hle
    have := ih (RecordResponse a c) s10 sle
    simpa [recordAll, smax] using this

theorem mem_addUnique (acc : List String) (n w : String) (h : w ∈ acc ∨ w = n) :
    w ∈ addUnique acc n := by
  unfold addUnique
  by_cases hm : n ∈ acc
  · rw [if_pos hm]
    rcases h with hw | rfl
    · exact hw
    · exact hm
  · rw [if_neg hm]
    rcases h with hw | rfl
    · exact List.mem_append_left _ hw
    · exact List.mem_append_right _ (List.mem_singleton.mpr rfl)

theorem foldl_addUnique_mem (l : List String) :
    ∀ (acc : List String) (w : String), w ∈ acc ∨ w ∈ l →
      w ∈ l.foldl addUnique acc := by
  induction l with
  | nil => intro acc w h; simpa using h
  | cons n rest ih =>
    intro acc w h
    rcases h with hw | hw
    · exact ih (addUnique acc n) w (Or.inl (mem_addUnique acc n w (Or.inl hw)))
    · rcases List.mem_cons.mp hw with heq | hw
      · exact ih (addUnique acc n) w (Or.inl (mem_addUnique acc n w (Or.inr heq)))
      · exact ih (addUnique acc n) w (Or.inr hw)

theorem addUnique_nodup (acc : List String) (n : String) (h : acc.Nodup) :
    (addUnique acc n).Nodup := by
  unfold addUnique
  by_cases hm : n ∈ acc
  · rw [if_pos hm]; exact h
  · rw [if_neg hm]
    refine List.nodup_append.mpr ⟨h, List.nodup_singleton n, ?_⟩
    intro x hx hx1
    rw [List.mem_singleton] at hx1
    subst hx1
    exact hm hx

theorem foldl_addUnique_nodup (l : List String) :
    ∀ acc : List String, acc.Nodup → (l.foldl addUnique acc).Nodup := by
  induction l with
  | nil => intro acc h; simpa using h
  | cons n rest ih =>
    intro acc h
    exact ih (addUnique acc n) (addUnique_nodup acc n h)

theorem checkLoop_status_stop (f : ℕ → Attempt) (attempt fuel s : ℕ)
    (h : f attempt = .status s) (hns : ¬(500 ≤ s ∧ attempt < 2)) :
    checkLoop f attempt (fuel + 1) =
      { result := classifyStatus s
        statusCode := s
        error :=
          if s = 200 ∨ s = 403 ∨ s = 404 ∨ s = 301 ∨ s = 307 then none
          else some ("unexpected status code: " ++ toString s) } := by
  unfold checkLoop
  rw [h]
  dsimp only
  rw [if_neg hns]

theorem checkLoop_retry (f : ℕ → Attempt) (attempt fuel : ℕ)
    (h : retryable (f attempt)) (ha : attempt < 2) :
    checkLoop f attempt (fuel + 1) = checkLoop f (attempt + 1) fuel := by
  conv_lhs => unfold checkLoop
  cases hf : f attempt with
  | netErr => simp only [hf]; rw [if_pos ha]
  | status s =>
    have hs : 500 ≤ s := by rw [hf] at h; exact h
    simp only [hf]
    rw [if_pos ⟨hs, ha⟩]

theorem processBucket_emits (deep : Bool) (probeO : String → ProbeResponse)
    (inspectO : String → InspectResult) (st : ScanStats × List ScanResult)
    (b : String) :
    (processBucket deep probeO inspectO st b).2 =
      st.2 ++ (if (probeO b).result = .bucketNotFound then []
               else [emittedRecord deep probeO inspectO b]) := by
  unfold processBucket emittedRecord
  cases h : (probeO b).result <;> simp [h]

theorem runScan_emitted (deep : Bool) (probeO : String → ProbeResponse)
    (inspectO : String → InspectResult) (names : List String) :
    ∀ st : ScanStats × List ScanResult,
      (names.foldl (processBucket deep probeO inspectO) st).2 =
        st.2 ++ (names.filter
            (fun b => !((probeO b).result == .bucketNotFound))).map
          (emittedRecord deep probeO inspectO) := by
  induction names with
  | nil => intro st; simp
  | cons b rest ih =>
    intro st
    rw [List.foldl_cons, ih, List.filter_cons]
    by_cases h : (probeO b).result = .bucketNotFound
    · simp [processBucket_emits, h]
    · simp [processBucket_emits, h]

theorem emittedRecord_probe (deep : Bool) (probeO : String → ProbeResponse)
    (inspectO : String → InspectResult) (b : String) :
    (emittedRecord deep probeO inspectO b).probe = (probeO b).result := by
  unfold emittedRecord
  cases h : (probeO b).result <;> rfl

theorem parseRegionFromError_nonempty (e : String) :
    parseRegionFromError e ≠ "" := by
  unfold parseRegionFromError
  cases hf : knownRegions.find? (fun r => containsSub e r) with
  | none => simp
  | some x =>
    have hx : x ∈ knownRegions := List.mem_of_find?_eq_some hf
    have hall : ∀ y ∈ knownRegions, y ≠ "" := by decide
    simpa using hall x hx

theorem foldl_addValid_eq (l : List String) :
    ∀ acc : List String,
      l.foldl addValid acc =
        (l.filter (fun n => IsValidBucketName n)).foldl addUnique acc := by
  induction l with
  | nil => intro acc; rfl
  | cons n rest ih =>
    intro acc
    by_cases hv : IsValidBucketName n = true
    · have : addValid acc n = addUnique acc n := by
        unfold addValid addUnique
        by_cases hm : n ∈ acc <;> simp [hm, hv]
      simp [List.foldl_cons, List.filter_cons, hv, this, ih]
    · have : addValid acc n = acc := by
        unfold addValid
        simp [hv]
      simp [List.foldl_cons, List.filter_cons, hv, this, ih]

theorem check_eq_finalResponse (f : ℕ → Attempt) (i s : ℕ) (hi : i ≤ 2)
    (hstat : f i = .status s) (hfinal : s < 500 ∨ i = 2)
    (hprev : ∀ j, j < i → retryable (f j)) :
    check f =
      { result := classifyStatus s
        statusCode := s
        error :=
          if s = 200 ∨ s = 403 ∨ s = 404 ∨ s = 301 ∨ s = 307 then none
          else some ("unexpected status code: " ++ toString s) } := by
  interval_cases i
  · have hs : s < 500 := by
      rcases hfinal with h | h
      · exact h
      · omega
    have hns : ¬(500 ≤ s ∧ (0 : ℕ) < 2) := fun hc => absurd hc.1 (not_le.mpr hs)
    exact checkLoop_status_stop f 0 2 s hstat hns
  · have hs : s < 500 := by
      rcases hfinal with h | h
      · exact h
      · omega
    have h0 : retryable (f 0) := hprev 0 (by omega)
    have e1 : checkLoop f 0 3 = checkLoop f 1 2 := checkLoop_retry f 0 2 h0 (by omega)
    have hns : ¬(500 ≤ s ∧ (1 : ℕ) < 2) := fun hc => absurd hc.1 (not_le.mpr hs)
    have e2 := checkLoop_status_stop f 1 1 s hstat hns
    unfold check
    rw [e1]
    exact e2
  · have h0 : retryable (f 0) := hprev 0 (by omega)
    have h1 : retryable (f 1) := hprev 1 (by omega)
    have e1 : checkLoop f 0 3 = checkLoop f 1 2 := checkLoop_retry f 0 2 h0 (by omega)
    have e2 : checkLoop f 1 2 = checkLoop f 2 1 := checkLoop_retry f 1 1 h1 (by omega)
    have hns : ¬(500 ≤ s ∧ (2 : ℕ) < 2) := fun hc => by omega
    have e3 := checkLoop_status_stop f 2 0 s hstat hns
    unfold check
    rw [e1, e2]
    exact e3

/-! ## Claim theorems -/

/-- C1: whenever the retry loop of `Prober.Check` ends with an HTTP
response of status `s` (attempt `i`, every earlier attempt a transport
error or a retried 5xx, and `s` not a 5xx unless the retries are spent),
the outcome is classified 200 → Exists, 403 → Forbidden, 404 → NotFound,
301/307 → Forbidden, anything else → Error with an error message, and the
returned `ProbeResponse` carries that final status code. -/
theorem check_classifies_final_status (f : ℕ → Attempt) (i s : ℕ) (hi : i ≤ 2)
    (hstat : f i = .status s) (hfinal : s < 500 ∨ i = 2)
    (hprev : ∀ j, j < i → retryable (f j)) :
    (check f).statusCode = s ∧
    (s = 200 → (check f).result = .bucketExists) ∧
    (s = 403 → (check f).result = .bucketForbidden) ∧
    (s = 404 → (check f).result = .bucketNotFound) ∧
    (s = 301 ∨ s = 307 → (check f).result = .bucketForbidden) ∧
    (¬(s = 200 ∨ s = 403 ∨ s = 404 ∨ s = 301 ∨ s = 307) →
      (check f).result = .bucketError ∧ (check f).error.isSome = true) := by
  rw [check_eq_finalResponse f i s hi hstat hfinal hprev]
  dsimp only
  refine ⟨rfl, ?_, ?_, ?_, ?_, ?_⟩
  · intro h; simp [classifyStatus, h]
  · intro h; simp [classifyStatus, h]
  · intro h; simp [classifyStatus, h]
  · intro h
    rcases h with rfl | rfl <;> simp [classifyStatus]
  · intro h
    push_neg at h
    obtain ⟨h1, h2, h3, h4, h5⟩ := h
    constructor
    · unfold classifyStatus
      rw [if_neg h1, if_neg h2, if_neg h3, if_neg (not_or.mpr ⟨h4, h5⟩)]
    · rw [if_neg (by tauto : ¬(s = 200 ∨ s = 403 ∨ s = 404 ∨ s = 301 ∨ s = 307))]
      rfl

/-- C1 witness: every attempt answers 500, so the loop retries twice and
surfaces the 500 as an Error carrying status 500. -/
theorem check_classifies_final_status_witness :
    (check (fun _ => Attempt.status 500)).statusCode = 500 ∧
    (check (fun _ => Attempt.status 500)).result = .bucketError := by
  have h := check_classifies_final_status (fun _ => Attempt.status 500) 2 500
    (by omega) rfl (Or.inr rfl) (fun j hj => le_refl 500)
  exact ⟨h.1, (h.2.2.2.2.2 (by decide)).1⟩

theorem limiter_scenario_currentRPS :
    (recordAll (recordAll (ratelimitNew 100) [429, 429, 429])
        (List.replicate 100 200)).currentRPS = 55 + 1 / 2 ^ 47 := by
  have h3 : recordAll (ratelimitNew 100) [429, 429, 429] = ⟨100, 50, 0, 0⟩ := by
    norm_num [recordAll, RecordResponse, ratelimitNew, List.foldl]
  have h99 : recordAll ⟨100, 50, 0, 0⟩ (List.replicate 99 200) = ⟨100, 50, 0, 99⟩ := by
    have h := recordAll_success_run 99 ⟨100, 50, 0, 0⟩ rfl (by norm_num)
    simpa using h
  have hsplit : recordAll (⟨100, 50, 0, 0⟩ : AdaptiveLimiter) (List.replicate 100 200) =
      RecordResponse (recordAll ⟨100, 50, 0, 0⟩ (List.replicate 99 200)) 200 := by
    rw [show (100 : ℕ) = 99 + 1 from rfl, List.replicate_succ']
    simp [recordAll, List.foldl_append]
  rw [h3, hsplit, h99]
  unfold RecordResponse
  rw [if_neg (by norm_num : ¬((200 : ℕ) = 429 ∨ (200 : ℕ) = 503))]
  dsimp only
  rw [if_pos (by norm_num : (100 : ℕ) ≤ 99 + 1 ∧ (50 : ℚ) < 100)]
  dsimp only
  rw [fl64_fifty]
  rw [if_neg (by norm_num : ¬(100 : ℚ) < 7740561859543041 / 2 ^ 47)]
  norm_num

/-- C2 counterexample: the claimed «100 further successes leave
current_rps = 55» is false of the program: Go computes `50 * 1.1` in
binary64, which rounds to `55 + 2⁻⁴⁷` (55.000000000000007…), not 55. -/
theorem recordResponse_increase_rounding_counterexample :
    (recordAll (recordAll (ratelimitNew 100) [429, 429, 429])
        (List.replicate 100 200)).currentRPS = 55 + 1 / 2 ^ 47 ∧
    (recordAll (recordAll (ratelimitNew 100) [429, 429, 429])
        (List.replicate 100 200)).currentRPS ≠ 55 := by
  refine ⟨limiter_scenario_currentRPS, ?_⟩
  rw [limiter_scenario_currentRPS]
  norm_num

/-- C2 amended: a 429/503 response increments the consecutive-failure
counter and resets the success counter, and on the third consecutive
failure halves `current_rps` (exactly, floored at 10) and resets the
failure counter; any other status resets failures and increments
successes, and the 100th consecutive success with `current_rps` below the
ceiling sets `current_rps = min(ceiling, fl64(current_rps × 1.1))` — the
binary64 rounding of the product with the binary64 literal `1.1` — and
resets successes.  Concretely, from ceiling 100: three 429s leave
`current_rps = 50`, and 100 further successes leave
`current_rps = 55 + 2⁻⁴⁷`, not exactly 55. -/
theorem recordResponse_aimd_transitions :
    (∀ (a : AdaptiveLimiter) (code : ℕ), code = 429 ∨ code = 503 →
      RecordResponse a code =
        if 3 ≤ a.consecutive429 + 1 then
          { a with consecutive429 := 0, successCount := 0,
                   currentRPS := max 10 (a.currentRPS * (1 / 2)) }
        else
          { a with consecutive429 := a.consecutive429 + 1, successCount := 0 }) ∧
    (∀ (a : AdaptiveLimiter) (code : ℕ), ¬(code = 429 ∨ code = 503) →
      RecordResponse a code =
        if 100 ≤ a.successCount + 1 ∧ a.currentRPS < a.maxRPS then
          { a with consecutive429 := 0, successCount := 0,
                   currentRPS := min a.maxRPS (fl64 (a.currentRPS * lit1_1)) }
        else
          { a with consecutive429 := 0, successCount := a.successCount + 1 }) ∧
    (recordAll (ratelimitNew 100) [429, 429, 429]).currentRPS = 50 ∧
    (recordAll (recordAll (ratelimitNew 100) [429, 429, 429])
        (List.replicate 100 200)).currentRPS = 55 + 1 / 2 ^ 47 := by
  refine ⟨?_, ?_, ?_, limiter_scenario_currentRPS⟩
  · intro a code h
    unfold RecordResponse
    rw [if_pos h]
    dsimp only
    by_cases h3 : 3 ≤ a.consecutive429 + 1
    · rw [if_pos h3, if_pos h3]
      have hmax : (if a.currentRPS * (1 / 2) < 10 then (10 : ℚ)
          else a.currentRPS * (1 / 2)) = max 10 (a.currentRPS * (1 / 2)) := by
        rcases le_or_lt 10 (a.currentRPS * (1 / 2)) with hx | hx
        · rw [if_neg (not_lt.mpr hx), max_eq_right hx]
        · rw [if_pos hx, max_eq_left hx.le]
      rw [hmax]
    · rw [if_neg h3, if_neg h3]
  · intro a code h
    unfold RecordResponse
    rw [if_neg h]
    dsimp only
    by_cases hs : 100 ≤ a.successCount + 1 ∧ a.currentRPS < a.maxRPS
    · rw [if_pos hs, if_pos hs]
      have hmin : (if a.maxRPS < fl64 (a.currentRPS * lit1_1) then a.maxRPS
          else fl64 (a.currentRPS * lit1_1)) =
            min a.maxRPS (fl64 (a.currentRPS * lit1_1)) := by
        rcases lt_or_le a.maxRPS (fl64 (a.currentRPS * lit1_1)) with hx | hx
        · rw [if_pos hx, min_eq_left hx.le]
        · rw [if_neg (not_lt.mpr hx), min_eq_right hx]
      rw [hmin]
    · rw [if_neg hs, if_neg hs]
  · norm_num [recordAll, RecordResponse, ratelimitNew, List.foldl]

/-- C2 witness: the throttle transition applied at the concrete state
(ceiling 100, two prior failures): the third 429 halves the rate to 50. -/
theorem recordResponse_aimd_transitions_witness :
    RecordResponse ⟨100, 100, 2, 0⟩ 429 =
      { maxRPS := 100, currentRPS := 50, consecutive429 := 0, successCount := 0 } := by
  have h := recordResponse_aimd_transitions.1 ⟨100, 100, 2, 0⟩ 429 (Or.inl rfl)
  rw [h]
  norm_num

/-- C3 counterexample: the claim says one `RecordResponse(0)` from
`current_rps = 100` immediately applies a ×0.3 decrease (to 30); the code
leaves `current_rps` at 100 (and counts the call as a success). -/
theorem recordResponse_zero_counterexample :
    (RecordResponse (ratelimitNew 100) 0).currentRPS = 100 ∧
    (RecordResponse (ratelimitNew 100) 0).currentRPS ≠ 30 ∧
    (RecordResponse (ratelimitNew 100) 0).successCount = 1 := by
  have h : RecordResponse (ratelimitNew 100) 0 = ⟨100, 100, 0, 1⟩ := by
    norm_num [RecordResponse, ratelimitNew]
  rw [h]
  norm_num

/-- C3 amended: `RecordResponse(0)` takes the non-throttle branch — it is
handled exactly like a success status (e.g. 200): the failure counter
resets, the success counter increments, and no ×0.3 decrease, threshold-1
rule, or 5-RPS floor exists anywhere in the limiter. -/
theorem recordResponse_zero_is_success (a : AdaptiveLimiter) :
    RecordResponse a 0 = RecordResponse a 200 ∧
    (RecordResponse a 0).consecutive429 = 0 := by
  constructor
  · unfold RecordResponse
    rw [if_neg (by norm_num : ¬((0 : ℕ) = 429 ∨ (0 : ℕ) = 503)),
      if_neg (by norm_num : ¬((200 : ℕ) = 429 ∨ (200 : ℕ) = 503))]
  · unfold RecordResponse
    rw [if_neg (by norm_num : ¬((0 : ℕ) = 429 ∨ (0 : ℕ) = 503))]
    dsimp only
    split_ifs <;> rfl

/-- C8 amended: for a limiter whose configured ceiling is at least the
10-RPS throttle floor, every sequence of `RecordResponse` calls keeps
`current_rps` between 10 and the ceiling.  (A ceiling below 10 is
overshot by the floored decrease — see the counterexample.) -/
theorem limiter_bounds_floor_ceiling (m : ℚ) (codes : List ℕ) (hm : 10 ≤ m) :
    10 ≤ (recordAll (ratelimitNew m) codes).currentRPS ∧
      (recordAll (ratelimitNew m) codes).currentRPS ≤ m := by
  have hnew : ratelimitNew m = ⟨m, m, 0, 0⟩ := by
    unfold ratelimitNew
    rw [if_neg (by linarith : ¬m ≤ 0)]
  have h := recordAll_bounds codes (ratelimitNew m)
    (by rw [hnew]; exact hm) (by rw [hnew])
  refine ⟨h.1, ?_⟩
  have hmax : (ratelimitNew m).maxRPS = m := by rw [hnew]
  have h2 := h.2.1
  rw [h.2.2, hmax] at h2
  exact h2

/-- C8 witness: the bounds at ceiling 100 after three 429 responses. -/
theorem limiter_bounds_floor_ceiling_witness :
    10 ≤ (recordAll (ratelimitNew 100) [429, 429, 429]).currentRPS ∧
      (recordAll (ratelimitNew 100) [429, 429, 429]).currentRPS ≤ 100 :=
  limiter_bounds_floor_ceiling 100 [429, 429, 429] (by norm_num)

/-- C8 counterexample: with ceiling 5 (below the 10-RPS floor), three 429
responses set `current_rps = 10`, exceeding the configured ceiling — the
claimed invariant `current_rps ≤ maxRPS` fails. -/
theorem limiter_ceiling_counterexample :
    (recordAll (ratelimitNew 5) [429, 429, 429]).maxRPS = 5 ∧
    (recordAll (ratelimitNew 5) [429, 429, 429]).currentRPS = 10 ∧
    ¬((recordAll (ratelimitNew 5) [429, 429, 429]).currentRPS ≤
        (recordAll (ratelimitNew 5) [429, 429, 429]).maxRPS) := by
  have h : recordAll (ratelimitNew 5) [429, 429, 429] = ⟨5, 10, 0, 0⟩ := by
    norm_num [recordAll, RecordResponse, ratelimitNew, List.foldl]
  rw [h]
  norm_num

theorem runScan_emitted_eq (deep : Bool) (probeO : String → ProbeResponse)
    (inspectO : String → InspectResult) (names : List String) :
    (runScan deep probeO inspectO names).2 =
      (names.filter (fun b => !((probeO b).result == .bucketNotFound))).map
        (emittedRecord deep probeO inspectO) := by
  unfold runScan
  rw [runScan_emitted]
  exact List.nil_append _

/-- C9: for a fixed engine (knob set) and seed, `Engine.Generate` is a
pure function — two runs give identical output — its output has no
duplicate strings, and it equals the first-insertion-wins deduplication
(in insertion order) of the valid candidates. -/
theorem generate_nodup_firstWins :
    ∀ (e : Engine) (seed : String),
      generate e seed = generate e seed ∧
      (generate e seed).Nodup ∧
      generate e seed =
        (if lowerStr (trimStr seed) = "" then []
         else firstWins ((candidates e (lowerStr (trimStr seed))).filter
            (fun n => IsValidBucketName n))) := by
  intro e seed
  refine ⟨rfl, ?_, ?_⟩
  · unfold generate
    dsimp only
    split_ifs with h
    · exact List.nodup_nil
    · rw [foldl_addValid_eq]
      exact foldl_addUnique_nodup _ [] List.nodup_nil
  · unfold generate firstWins
    dsimp only
    split_ifs with h
    · rfl
    · exact foldl_addValid_eq _ []

set_option maxRecDepth 8000 in
/-- C4 counterexample: the claimed «after trimming and lowercasing» does
not happen — the raw wordlist line `"BACKUP"` is emitted unchanged and the
lowercased form `"backup"` never appears. -/
theorem generateNames_wordlist_counterexample :
    generateNames "" ["BACKUP"] = ["BACKUP"] ∧
    "backup" ∉ generateNames "" ["BACKUP"] := by
  decide

set_option maxRecDepth 8000 in
/-- C4 amended: every wordlist line is added to the candidate output
verbatim, exactly as read — with no trimming, lowercasing, validation or
permutation expansion, only global deduplication — and with no seed the
output is exactly the deduplicated wordlist; for `["backup", "logs"]` it
is exactly `["backup", "logs"]`. -/
theorem generateNames_wordlist_raw :
    (∀ (seed : String) (ws : List String) (w : String), w ∈ ws →
      w ∈ generateNames seed ws) ∧
    (∀ ws : List String, generateNames "" ws = firstWins ws) ∧
    generateNames "" ["backup", "logs"] = ["backup", "logs"] := by
  refine ⟨?_, ?_, by decide⟩
  · intro seed ws w hw
    unfold generateNames
    exact foldl_addUnique_mem _ [] w (Or.inr (List.mem_append_right _ hw))
  · intro ws
    have hg : generate defaultEngine "" = [] := by
      unfold generate
      dsimp only
      rw [if_pos (by decide : lowerStr (trimStr "") = "")]
    unfold generateNames firstWins
    rw [hg, List.nil_append]

/-- C4 witness: the verbatim-membership component at a concrete wordlist:
`"logs"` appears in the generated names. -/
theorem generateNames_wordlist_raw_witness :
    "logs" ∈ generateNames "" ["backup", "logs"] :=
  generateNames_wordlist_raw.1 "" ["backup", "logs"] "logs" (by decide)

set_option maxRecDepth 8000 in
/-- C5: the source validator agrees exactly with the specification's
filter (length 3–63, the bucket regex, no `..`, not an IPv4-shaped
dotted quad); names of length 2 and 64 are always rejected, boundary
lengths 3 and 63 are accepted on well-formed names, `"1.2.3.4"` is
rejected as IP-like and `"1.2.3.a"` is accepted. -/
theorem bucketName_validation_spec :
    (∀ s : String, IsValidBucketName s = specValidBucketName s) ∧
    (∀ s : String, s.data.length = 2 → IsValidBucketName s = false) ∧
    (∀ s : String, s.data.length = 64 → IsValidBucketName s = false) ∧
    IsValidBucketName "abc" = true ∧
    IsValidBucketName
      "aaaaaaaaaaaaaaaaaaaaaaaaaaaaaaaaaaaaaaaaaaaaaaaaaaaaaaaaaaaaaaa" = true ∧
    IsValidBucketName "1.2.3.4" = false ∧
    IsValidBucketName "1.2.3.a" = true := by
  refine ⟨?_, ?_, ?_, by decide, by decide, by decide, by decide⟩
  · intro s
    unfold IsValidBucketName specValidBucketName
    by_cases h1 : s.data.length < 3 ∨ 63 < s.data.length
    · rw [if_pos h1]
      rcases h1 with h | h
      · have hd : ¬3 ≤ s.data.length := by omega
        rw [decide_eq_false hd]
        simp
      · have hd : ¬s.data.length ≤ 63 := by omega
        rw [decide_eq_false hd]
        simp
    · rw [if_neg h1]
      push_neg at h1
      have hl : 3 ≤ s.data.length := h1.1
      have hr : s.data.length ≤ 63 := h1.2
      by_cases hip : isIPAddress s = true
      · rw [if_pos hip]
        simp [hip]
      · rw [if_neg hip]
        have hipf : isIPAddress s = false := Bool.not_eq_true _ ▸ hip
        by_cases hdd : containsSub s ".." = true
        · rw [if_pos hdd]
          simp [hdd]
        · rw [if_neg hdd]
          have hddf : containsSub s ".." = false := Bool.not_eq_true _ ▸ hdd
          rw [decide_eq_true hl, decide_eq_true hr, hipf, hddf]
          simp
  · intro s h
    unfold IsValidBucketName
    rw [if_pos (Or.inl (by omega))]
  · intro s h
    unfold IsValidBucketName
    rw [if_pos (Or.inr (by omega))]

/-- C5 witness: the length-2 rejection applied at `"ab"`, and the
source/spec agreement applied at `"abc"`. -/
theorem bucketName_validation_spec_witness :
    IsValidBucketName "ab" = false ∧
    IsValidBucketName "abc" = specValidBucketName "abc" :=
  ⟨bucketName_validation_spec.2.1 "ab" (by decide),
   bucketName_validation_spec.1 "abc"⟩

set_option maxRecDepth 8000 in
/-- C6: no emitted result is classified NotFound, every other
classification emits exactly one result, and the stub scan with statuses
200, 403, 404, 301, 500 over five names emits exactly 4 results. -/
theorem scan_emits_all_but_notFound :
    (∀ (deep : Bool) (probeO : String → ProbeResponse)
        (inspectO : String → InspectResult) (names : List String)
        (r : ScanResult), r ∈ (runScan deep probeO inspectO names).2 →
          r.probe ≠ .bucketNotFound) ∧
    (∀ (deep : Bool) (probeO : String → ProbeResponse)
        (inspectO : String → InspectResult) (names : List String),
      (runScan deep probeO inspectO names).2.length =
        (names.filter (fun b => !((probeO b).result == .bucketNotFound))).length) ∧
    (runScan false stubProbe stubInspect ["n1", "n2", "n3", "n4", "n5"]).2.length = 4 := by
  refine ⟨?_, ?_, by decide⟩
  · intro deep probeO inspectO names r hr
    rw [runScan_emitted_eq] at hr
    obtain ⟨b, hb, rfl⟩ := List.mem_map.mp hr
    rw [emittedRecord_probe]
    have h2 := (List.mem_filter.mp hb).2
    simpa using h2
  · intro deep probeO inspectO names
    rw [runScan_emitted_eq, List.length_map]

set_option maxRecDepth 8000 in
/-- C6 witness: the no-NotFound component applied to the first emitted
result of a one-name stub scan. -/
theorem scan_emits_all_but_notFound_witness :
    (⟨"n1", ProbeResult.bucketExists, none⟩ : ScanResult).probe ≠
      ProbeResult.bucketNotFound :=
  scan_emits_all_but_notFound.1 false stubProbe stubInspect ["n1"]
    ⟨"n1", ProbeResult.bucketExists, none⟩ (by decide)

/-- C7 amended: a region-mismatch error on the anonymous list triggers
exactly one retry against the region parsed from the message; when the
retry succeeds the access fields report `public-read`, but the
`InspectResult.region` field keeps the initially resolved region — the
corrected region is not written back into the result. -/
theorem checkPublicAccess_region_retry
    (listO : String → Except String ListOutput) (region0 e r : String)
    (out : ListOutput)
    (h1 : listO (normRegion region0) = .error e)
    (h2 : isRegionMismatch e = true)
    (h3 : parseRegionFromError e = r)
    (h4 : r ≠ normRegion region0)
    (h5 : listO (normRegion r) = .ok out) :
    checkPublicAccess listO region0 = listSuccess out ∧
    (listSuccess out).acl = "public-read" ∧
    (∀ (headO : Option String) (bucket : String),
      getBucketRegion headO = region0 →
        (inspect headO listO bucket).acl = "public-read" ∧
        (inspect headO listO bucket).region = region0) := by
  have hne : r ≠ "" := h3 ▸ parseRegionFromError_nonempty e
  have hmain : checkPublicAccess listO region0 = listSuccess out := by
    unfold checkPublicAccess checkPublicAccessWithRetry
    dsimp only
    rw [h1]
    dsimp only
    rw [if_pos h2, h3, if_pos ⟨hne, h4⟩]
    unfold checkAccessFinal
    rw [h5]
  refine ⟨hmain, rfl, ?_⟩
  intro headO bucket hh
  unfold inspect
  dsimp only
  rw [hh, hmain]
  exact ⟨rfl, rfl⟩

/-- C7 witness: the retry theorem applied at the concrete scenario oracle
(first attempt against us-east-1 fails naming eu-west-1, retry succeeds),
giving acl `public-read` on the inspect result. -/
theorem checkPublicAccess_region_retry_witness :
    (inspect none regionRetryListO "mybucket2").acl = "public-read" :=
  (checkPublicAccess_region_retry regionRetryListO "us-east-1"
      "operation error S3: ListObjectsV2, please use the correct region: eu-west-1"
      "eu-west-1" ⟨["key1"], false⟩ rfl rfl rfl (by decide) rfl).2.2
    none "mybucket2" rfl |>.1

set_option maxRecDepth 8000 in
/-- C7 counterexample: in the claim's scenario the first list attempt
(against us-east-1) fails with «please use the correct region …
eu-west-1» and the retry against eu-west-1 succeeds; the result's acl is
`public-read` but its region field is `us-east-1`, not the claimed
`eu-west-1`. -/
theorem inspect_region_retry_counterexample :
    regionRetryListO "us-east-1" = .error
      "operation error S3: ListObjectsV2, please use the correct region: eu-west-1" ∧
    regionRetryListO "eu-west-1" = .ok ⟨["key1"], false⟩ ∧
    (inspect none regionRetryListO "mybucket").acl = "public-read" ∧
    (inspect none regionRetryListO "mybucket").region = "us-east-1" ∧
    (inspect none regionRetryListO "mybucket").region ≠ "eu-west-1" := by
  refine ⟨rfl, rfl, ?_, ?_, ?_⟩ <;> decide

/-- C10: `Inspector.Inspect` sets the `Exists` flag to `true`
unconditionally, whatever the region lookup and the anonymous list
attempt return. -/
theorem inspect_exists_always_true :
    ∀ (headO : Option String) (listO : String → Except String ListOutput)
      (bucket : String), (inspect headO listO bucket).existsB = true := by
  intro headO listO bucket
  rfl

end S3Finder
